import Mathlib

/-
  Shallow embedding of the core logic of overcrash66/YouTubeSubtitleManager.

  Source files embedded:
  - utils.py: extract_video_id, parse_srt_time, time_to_ms, ms_to_time,
    validate_and_adjust_timings
  - caption_fetch.py: fetch_via_transcript_api, fetch_via_ytdlp,
    fetch_via_pytube, get_captions (provider behaviour abstracted into an
    environment record; control flow translated from the source)
  - main.py lines 47-52: the language-level caption fallback
  - transcription.py: the model caches (_whisper_models, _faster_models,
    clean_model_cache, _get_whisper_model, _get_faster_model),
    check_audio_file and download_audio

  Python exceptions are modelled with Option/Except; machine integers are
  Int/Nat (Python integers are unbounded, so no wrap-around modelling is
  needed).
-/

/-! ## utils.py: SRT timestamps -/

/-- Result of datetime.strptime on an SRT timestamp: the time-of-day fields
the code reads back (hour, minute, second, microsecond). -/
structure SrtTime where
  hour : Nat
  minute : Nat
  second : Nat
  micro : Nat
deriving DecidableEq

/-- Leading run of decimal digits of a character list, and the remainder.
Mirrors how the strptime regex consumes a maximal digit field. -/
def readDigits : List Char → List Char × List Char
  | [] => ([], [])
  | c :: cs =>
    if c.isDigit then
      let p := readDigits cs
      (c :: p.1, p.2)
    else ([], c :: cs)

/-- Decimal value of a digit run (as Python int on a digit string). -/
def digitsToNat (ds : List Char) : Nat :=
  ds.foldl (fun a c => a * 10 + (c.toNat - 48)) 0

/-- Parse the "H:M:S" part shared by both strptime formats.  The strptime
field regexes accept one or two digits with field bounds hour 0-23,
minute 0-59, second 0-61 (datetime construction later rejects 60-61). -/
def parseHMS (cs : List Char) : Option (Nat × Nat × Nat × List Char) :=
  let ph := readDigits cs
  if ph.1.length = 0 ∨ 2 < ph.1.length then none else
  match ph.2 with
  | ':' :: r2 =>
    let pm := readDigits r2
    if pm.1.length = 0 ∨ 2 < pm.1.length then none else
    match pm.2 with
    | ':' :: r4 =>
      let ps := readDigits r4
      if ps.1.length = 0 ∨ 2 < ps.1.length then none else
      let h := digitsToNat ph.1
      let m := digitsToNat pm.1
      let s := digitsToNat ps.1
      if h ≤ 23 ∧ m ≤ 59 ∧ s ≤ 61 then some (h, m, s, ps.2) else none
    | _ => none
  | _ => none

/-- strptime with format "H:M:S,f": after "H:M:S" a comma and one to six
digits of fractional seconds (padded right to microseconds), then end of
input.  datetime construction rejects seconds 60-61 with ValueError. -/
def parseFmtFrac (cs : List Char) : Option SrtTime :=
  match parseHMS cs with
  | none => none
  | some (h, m, s, rest) =>
    match rest with
    | ',' :: fr =>
      let pf := readDigits fr
      if 1 ≤ pf.1.length ∧ pf.1.length ≤ 6 ∧ pf.2 = [] ∧ s ≤ 59 then
        some ⟨h, m, s, digitsToNat pf.1 * 10 ^ (6 - pf.1.length)⟩
      else none
    | _ => none

/-- strptime with format "H:M:S": no fractional part, end of input. -/
def parseFmtPlain (cs : List Char) : Option SrtTime :=
  match parseHMS cs with
  | none => none
  | some (h, m, s, rest) =>
    if rest = [] ∧ s ≤ 59 then some ⟨h, m, s, 0⟩ else none

/-- utils.parse_srt_time: replace every period with a comma, then try the
fractional format and fall back to the plain format; returning none models
the ValueError raised when both formats fail. -/
def parse_srt_time (ts : String) : Option SrtTime :=
  let cs := ts.data.map fun c => if c = '.' then ',' else c
  match parseFmtFrac cs with
  | some t => some t
  | none => parseFmtPlain cs

/-- utils.time_to_ms. -/
def time_to_ms (t : SrtTime) : Nat :=
  (t.hour * 3600 + t.minute * 60 + t.second) * 1000 + t.micro / 1000

/-- Pad a string on the left with zeros to the given width. -/
def zfill (w : Nat) (s : String) : String :=
  if w ≤ s.length then s else String.mk (List.replicate (w - s.length) '0') ++ s

/-- Python zero-padded decimal formatting of an integer at a given minimum
width (the sign, when present, counts toward the width and precedes the
padding zeros). -/
def pyPad (w : Nat) (n : Int) : String :=
  if n < 0 then "-" ++ zfill (w - 1) (Nat.repr n.natAbs) else zfill w (Nat.repr n.toNat)

/-- utils.ms_to_time: Python floor division and modulo are Int.fdiv and
Int.fmod. -/
def ms_to_time (ms : Int) : String :=
  let h := ms.fdiv 3600000
  let r1 := ms.fmod 3600000
  let m := r1.fdiv 60000
  let r2 := r1.fmod 60000
  let s := r2.fdiv 1000
  let ms_rem := r2.fmod 1000
  pyPad 2 h ++ ":" ++ pyPad 2 m ++ ":" ++ pyPad 2 s ++ "," ++ pyPad 3 ms_rem

/-! ## utils.py: validate_and_adjust_timings -/

/-- Substring test on character lists (Python `in` on strings). -/
def listHasSub (pat : List Char) : List Char → Bool
  | [] => pat.isEmpty
  | c :: cs => pat.isPrefixOf (c :: cs) || listHasSub pat cs

/-- Python `pat in s` for strings. -/
def hasSubstr (pat s : String) : Bool :=
  listHasSub pat.data s.data

/-- Characters Python str.strip removes: everything str.isspace accepts,
namely ASCII whitespace, the separator controls 1c-1f, next-line 85,
no-break space a0, and the Unicode space and line separators. -/
def isPySpace (c : Char) : Bool :=
  c == ' ' || c == '\t' || c == '\n' || c == '\r' || c == '\x0b' || c == '\x0c' ||
  ('\x1c' ≤ c && c ≤ '\x1f') || c == '\x85' || c == '\xa0' ||
  c == '\u1680' || ('\u2000' ≤ c && c ≤ '\u200a') ||
  c == '\u2028' || c == '\u2029' || c == '\u202f' || c == '\u205f' || c == '\u3000'

/-- Python str.strip with no argument: remove leading and trailing
whitespace. -/
def pyStrip (s : String) : String :=
  String.mk (((s.data.dropWhile isPySpace).reverse.dropWhile isPySpace).reverse)

/-- Python str.split with a non-empty separator, on character lists; the
fuel argument (instantiated with the input length) only justifies
termination. -/
def pySplitFuel (sep : List Char) : Nat → List Char → List (List Char)
  | _, [] => [[]]
  | 0, s => [s]
  | fuel + 1, c :: cs =>
    if sep ≠ [] ∧ sep.isPrefixOf (c :: cs) then
      [] :: pySplitFuel sep fuel ((c :: cs).drop sep.length)
    else
      match pySplitFuel sep fuel cs with
      | [] => [[c]]
      | p :: rest => (c :: p) :: rest

/-- Python str.split with a non-empty separator: split at every
non-overlapping occurrence, scanning left to right. -/
def pySplit (s sep : String) : List String :=
  (pySplitFuel sep.data s.data.length s.data).map String.mk

/-- Python sep.join on a list of strings. -/
def joinSep (sep : String) : List String → String
  | [] => ""
  | [x] => x
  | x :: xs => x ++ sep ++ joinSep sep xs

/-- Python str.lower on the characters appearing here. -/
def pyLower (s : String) : String :=
  String.mk (s.data.map Char.toLower)

/-- The line-break characters of Python str.splitlines: newline, carriage
return, vertical tab, form feed, the separator controls 1c-1e, next-line
85, and the Unicode line and paragraph separators. -/
def isPyLineBreak (c : Char) : Bool :=
  c == '\n' || c == '\r' || c == '\x0b' || c == '\x0c' ||
  ('\x1c' ≤ c && c ≤ '\x1e') || c == '\x85' || c == '\u2028' || c == '\u2029'

/-- Python str.splitlines: split at every line-break character, with the
carriage-return-newline pair counting as one break; no entry is produced
for a trailing line break. -/
def splitlinesAux : List Char → List Char → List String
  | [], acc => if acc.isEmpty then [] else [String.mk acc.reverse]
  | '\r' :: '\n' :: rest, acc => String.mk acc.reverse :: splitlinesAux rest []
  | c :: rest, acc =>
    if isPyLineBreak c then String.mk acc.reverse :: splitlinesAux rest []
    else splitlinesAux rest (c :: acc)

/-- Python str.splitlines. -/
def splitlines (s : String) : List String :=
  splitlinesAux s.data []

/-- One parsed subtitle block: index line, start and end in milliseconds
(time_to_ms applied to the parsed timestamps), remaining text lines. -/
structure ParsedBlock where
  idx : String
  start_ms : Nat
  end_ms : Nat
  text : List String
deriving DecidableEq

/-- Parsing of one block inside validate_and_adjust_timings: splitlines,
unpack index and timing line (ValueError when fewer than two lines), split
the timing line on the arrow into exactly two parts (ValueError otherwise),
parse both timestamps. -/
def parseBlock (blk : String) : Option ParsedBlock :=
  match splitlines blk with
  | idx :: timing :: text =>
    match pySplit timing " --> " with
    | [start_s, end_s] =>
      match parse_srt_time start_s, parse_srt_time end_s with
      | some sdt, some edt => some ⟨idx, time_to_ms sdt, time_to_ms edt, text⟩
      | _, _ => none
    | _ => none
  | _ => none

/-- The block list of validate_and_adjust_timings: strip the input, split on
blank lines, keep blocks containing the arrow, parse each (none when any
block raises). -/
def parsedBlocks (srt : String) : Option (List ParsedBlock) :=
  ((pySplit (pyStrip srt) "\n\n").filter fun b => hasSubstr "-->" b).mapM parseBlock

/-- The numeric timing pass of validate_and_adjust_timings (utils.py lines
75-79), threading prev_end through the blocks:
start is max of the original start and prev_end + min_gap; end is the
original end, widened to start + 500 when not strictly after start. -/
def adjustPass (gap : Int) : Int → List (Nat × Nat) → List (Int × Int)
  | _, [] => []
  | prev, (s0, e0) :: rest =>
    let start_ms : Int := max (s0 : Int) (prev + gap)
    let end_ms : Int := if (e0 : Int) ≤ start_ms then start_ms + 500 else (e0 : Int)
    (start_ms, end_ms) :: adjustPass gap end_ms rest

/-- Re-rendering of one block with its adjusted times. -/
def renderBlock (pb : ParsedBlock) (t : Int × Int) : String :=
  joinSep "\n" (pb.idx :: (ms_to_time t.1 ++ " --> " ++ ms_to_time t.2) :: pb.text)

/-- utils.validate_and_adjust_timings; none models an uncaught exception
from parsing a malformed block. -/
def validate_and_adjust_timings (srt : String) (min_gap : Int) : Option String :=
  (parsedBlocks srt).map fun parsed =>
    let times := adjustPass min_gap 0 (parsed.map fun pb => (pb.start_ms, pb.end_ms))
    joinSep "\n\n" ((parsed.zip times).map fun pt => renderBlock pt.1 pt.2) ++ "\n"

/-! ## utils.py: extract_video_id -/

/-- One character of the video-id character class of the source regexes. -/
def isIdChar (c : Char) : Bool :=
  c.isAlphanum || c == '_' || c == '-'

/-- Take the group of eleven id-class characters required right after a
pattern anchor; none when fewer than eleven such characters follow. -/
def takeId11 (cs : List Char) : Option String :=
  let t := cs.take 11
  if t.length = 11 ∧ t.all isIdChar then some (String.mk t) else none

/-- Attempt of the first source regex at one position: either "v=" or a
slash, then the eleven-character group (the trailing dot-star of the
pattern constrains nothing). -/
def tryPatternVeq (cs : List Char) : Option String :=
  match cs with
  | 'v' :: '=' :: rest => takeId11 rest
  | '/' :: rest => takeId11 rest
  | _ => none

/-- Attempt of the second source regex at one position: the literal
shortened-domain prefix then the group. -/
def tryPatternShort (cs : List Char) : Option String :=
  if ("youtu.be/".data).isPrefixOf cs then takeId11 (cs.drop 9) else none

/-- Attempt of the third source regex at one position: the literal embed
path prefix then the group. -/
def tryPatternEmbed (cs : List Char) : Option String :=
  if ("embed/".data).isPrefixOf cs then takeId11 (cs.drop 6) else none

/-- re.search: try the attempt at every position, leftmost-first. -/
def reSearch (f : List Char → Option String) : List Char → Option String
  | [] => f []
  | c :: cs =>
    match f (c :: cs) with
    | some v => some v
    | none => reSearch f cs

/-- The fourth, anchored source regex: the whole string is exactly eleven
id-class characters (a dollar anchor also matches just before one final
newline). -/
def matchBareId (s : String) : Option String :=
  let cs := s.data
  if cs.length = 11 ∧ cs.all isIdChar then some s
  else if cs.length = 12 ∧ cs.getLast? = some '\n' ∧ (cs.take 11).all isIdChar then
    some (String.mk (cs.take 11))
  else none

/-- utils.extract_video_id: the four patterns in order, empty string when
none matches. -/
def extract_video_id (url : String) : String :=
  match reSearch tryPatternVeq url.data with
  | some v => v
  | none =>
    match reSearch tryPatternShort url.data with
    | some v => v
    | none =>
      match reSearch tryPatternEmbed url.data with
      | some v => v
      | none =>
        match matchBareId url with
        | some v => v
        | none => ""

/-! ## caption_fetch.py and main.py lines 47-52: the caption resolver

The three provider functions perform network and process calls; their
observable behaviour is abstracted into a CapEnv record, while the control
flow around them (the internal English retry of the transcript API, the
two-language subtitle request of the download tool, the key then any-caption
scan of the page scraper, the short-circuiting loop of get_captions and the
language fallback of main) is translated from the source.  Every consult of
a provider for a language is recorded in a trace. -/

/-- The three caption providers, in the declared order of get_captions. -/
inductive Provider
  | api
  | ytdlp
  | pytube
deriving DecidableEq, BEq

/-- Abstracted outside world of caption_fetch.py. -/
structure CapEnv where
  /-- whether YouTubeTranscriptApi.list_transcripts succeeds -/
  listOk : Bool
  /-- transcripts.find_transcript for a language: the formatted SRT, or
  none for NoTranscriptFound -/
  findTranscript : String → Option String
  /-- the subtitle text produced by one yt-dlp invocation for a sub-langs
  list, or an uncaught error (non-zero exit is an ok empty string) -/
  ytdlpRun : List String → Except Unit String
  /-- whether pytube avoids its caught PytubeError/VideoUnavailable -/
  pytubeOk : Bool
  /-- the caption dictionary of the watch page, in iteration order -/
  caps : List (String × String)

/-- caption_fetch.fetch_via_transcript_api: find the requested language;
on NoTranscriptFound retry with the English fallback inside this first
provider (a second NoTranscriptFound escapes as an exception). -/
def fetch_via_transcript_api (env : CapEnv) (lang : String) :
    Except Unit String × List (Provider × String) :=
  if !env.listOk then (.error (), [])
  else
    match env.findTranscript lang with
    | some t => (.ok t, [(Provider.api, lang)])
    | none =>
      match env.findTranscript "en" with
      | some t => (.ok t, [(Provider.api, lang), (Provider.api, "en")])
      | none => (.error (), [(Provider.api, lang), (Provider.api, "en")])

/-- caption_fetch.fetch_via_ytdlp: a single tool invocation requesting
subtitles for both the requested language and English. -/
def fetch_via_ytdlp (env : CapEnv) (lang : String) :
    Except Unit String × List (Provider × String) :=
  (env.ytdlpRun [lang, "en"], [(Provider.ytdlp, lang), (Provider.ytdlp, "en")])

/-- Dictionary lookup on the caption map. -/
def lookupCap (caps : List (String × String)) (k : String) : Option String :=
  (caps.find? fun p => p.1 == k).map fun p => p.2

/-- The final loop of fetch_via_pytube: generate captions for every entry
in order until one is non-blank. -/
def anyCaption : List (String × String) → String × List (Provider × String)
  | [] => ("", [])
  | (k, v) :: rest =>
    if pyStrip v != "" then (v, [(Provider.pytube, k)])
    else
      let p := anyCaption rest
      (p.1, (Provider.pytube, k) :: p.2)

/-- caption_fetch.fetch_via_pytube: exact key, then auto key, then any
caption; caught scraper errors yield the empty string. -/
def fetch_via_pytube (env : CapEnv) (lang : String) :
    Except Unit String × List (Provider × String) :=
  if !env.pytubeOk then (.ok "", [])
  else
    let key : Option String :=
      if (lookupCap env.caps lang).isSome then some lang
      else if (lookupCap env.caps ("a." ++ lang)).isSome then some ("a." ++ lang)
      else none
    match key with
    | some k =>
      let t := (lookupCap env.caps k).getD ""
      if pyStrip t != "" then (.ok t, [(Provider.pytube, lang)])
      else
        let p := anyCaption env.caps
        (.ok p.1, (Provider.pytube, lang) :: p.2)
    | none =>
      let p := anyCaption env.caps
      (.ok p.1, (Provider.pytube, lang) :: p.2)

/-- The winning condition of the get_captions loop: a truthy string whose
strip is non-empty. -/
def goodStr (s : String) : Bool :=
  s != "" && pyStrip s != ""

/-- A provider result wins when no exception escaped and the text is
non-blank; an exception is treated like an empty result. -/
def goodE : Except Unit String → Bool
  | .ok s => goodStr s
  | .error _ => false

/-- The text of a provider result ("" for an exception). -/
def valE : Except Unit String → String
  | .ok s => s
  | .error _ => ""

/-- caption_fetch.get_captions: the three providers in order; the first
good result is returned as-is and short-circuits the rest; exceptions are
swallowed; empty string when all three fail. -/
def get_captions (env : CapEnv) (lang : String) : String × List (Provider × String) :=
  let a := fetch_via_transcript_api env lang
  if goodE a.1 then (valE a.1, a.2) else
  let y := fetch_via_ytdlp env lang
  if goodE y.1 then (valE y.1, a.2 ++ y.2) else
  let p := fetch_via_pytube env lang
  if goodE p.1 then (valE p.1, a.2 ++ y.2 ++ p.2) else
  ("", a.2 ++ y.2 ++ p.2)

/-- Outcome of the online-caption step of main. -/
structure ResolveOut where
  text : String
  langUsed : String
  trace : List (Provider × String)
  fallbackUsed : Bool
deriving DecidableEq

/-- main.py lines 47-52: get_captions for the requested language; when it
returns empty and the language is not English, one more get_captions pass
with English, recording English as the language used. -/
def resolveCaptions (env : CapEnv) (lang : String) : ResolveOut :=
  let r := get_captions env lang
  if r.1 != "" then ⟨r.1, lang, r.2, false⟩
  else if lang != "en" then
    let r2 := get_captions env "en"
    ⟨r2.1, "en", r.2 ++ r2.2, true⟩
  else ⟨r.1, lang, r.2, false⟩

/-- The ordering property claimed for the resolver: wherever the fallback
language appears in the consult trace, every provider has already been
consulted for the requested language at an earlier position. -/
def exhaustsProviders (tr : List (Provider × String)) (lang : String) : Bool :=
  (List.range tr.length).all fun i =>
    (tr.getD i (Provider.api, "")).2 != "en" ||
    [Provider.api, Provider.ytdlp, Provider.pytube].all fun p =>
      (tr.take i).contains (p, lang)

/-! ## transcription.py: the model caches -/

/-- transcription.VALID_MODEL_SIZES. -/
def VALID_MODEL_SIZES : List String :=
  ["tiny", "base", "small", "medium", "large", "large-v1", "large-v2", "large-v3"]

/-- transcription.MAX_CACHED_MODELS. -/
def MAX_CACHED_MODELS : Nat := 1

/-- transcription.validate_model_size. -/
def validate_model_size (s : String) : Bool :=
  VALID_MODEL_SIZES.contains s

/-- The two module-level model dictionaries (keys only: each key owns one
loaded model instance). -/
structure ModelCache where
  whisper : List String
  faster : List String
deriving DecidableEq

/-- transcription.clean_model_cache: both dictionaries are emptied. -/
def clean_model_cache (_ : ModelCache) : ModelCache :=
  ⟨[], []⟩

/-- transcription._get_whisper_model: invalid sizes raise before any
mutation; when the whisper dictionary is at the limit and the size is not
cached, both caches are cleared; then the model is loaded into the whisper
dictionary (loadOk false models a load that raises, leaving no entry). -/
def get_whisper_model (c : ModelCache) (size : String) (loadOk : Bool) : ModelCache :=
  if !validate_model_size size then c
  else
    let c :=
      if MAX_CACHED_MODELS ≤ c.whisper.length ∧ !c.whisper.contains size then
        clean_model_cache c
      else c
    if !c.whisper.contains size then
      if loadOk then { c with whisper := c.whisper ++ [size] } else c
    else c

/-- transcription._get_faster_model, the mirror image on the faster
dictionary. -/
def get_faster_model (c : ModelCache) (size : String) (loadOk : Bool) : ModelCache :=
  if !validate_model_size size then c
  else
    let c :=
      if MAX_CACHED_MODELS ≤ c.faster.length ∧ !c.faster.contains size then
        clean_model_cache c
      else c
    if !c.faster.contains size then
      if loadOk then { c with faster := c.faster ++ [size] } else c
    else c

/-- The cache operations the transcription code performs: get-or-load on
either backend, the post-success release del in transcribe_whisper and
transcribe_faster, and clean_model_cache. -/
inductive CacheOp
  | getW (size : String) (loadOk : Bool)
  | getF (size : String) (loadOk : Bool)
  | releaseW (size : String)
  | releaseF (size : String)
  | clear
deriving DecidableEq

/-- One cache operation applied to the cache state. -/
def cacheStep (c : ModelCache) : CacheOp → ModelCache
  | .getW size ok => get_whisper_model c size ok
  | .getF size ok => get_faster_model c size ok
  | .releaseW size => { c with whisper := c.whisper.filter fun k => k != size }
  | .releaseF size => { c with faster := c.faster.filter fun k => k != size }
  | .clear => clean_model_cache c

/-- A sequence of cache operations from the initial empty caches. -/
def runCacheOps (ops : List CacheOp) : ModelCache :=
  ops.foldl cacheStep ⟨[], []⟩

/-! ## transcription.py: check_audio_file and download_audio -/

/-- os.path.splitext extension: from the last dot of the final path
component, provided a non-dot character precedes it in that component. -/
def splitextExt (p : String) : String :=
  let cs := p.data
  let base := (cs.reverse.takeWhile fun c => c != '/').reverse
  let afterDots := base.dropWhile fun c => c == '.'
  if afterDots.contains '.' then
    String.mk ('.' :: (afterDots.reverse.takeWhile fun c => c != '.').reverse)
  else ""

/-- Abstracted filesystem and subprocess world of download_audio. -/
structure DlEnv where
  /-- whether shutil.which finds a yt-dlp or yt_dlp binary -/
  whichFound : Bool
  /-- whether the CLI subprocess.run returns without raising -/
  cliOk : Bool
  /-- the temporary download directory path -/
  tempDir : String
  /-- os.listdir of the temporary directory after the CLI run -/
  listing : List String
  /-- os.path.exists -/
  onDisk : String → Bool
  /-- os.path.getsize -/
  fileSize : String → Nat
  /-- the path returned by the yt_dlp Python API helper ("" on failure) -/
  apiPath : String

/-- transcription.check_audio_file: exists, at least 1000 bytes, lowercased
extension in the allowed set. -/
def check_audio_file (env : DlEnv) (p : String) : Bool :=
  env.onDisk p && decide (1000 ≤ env.fileSize p) &&
    [".mp3", ".wav", ".m4a", ".flac"].contains (pyLower (splitextExt p))

/-- The last dot-separated component of a filename (Python split on dot,
last element). -/
def lastDotPart (fn : String) : String :=
  (pySplit fn ".").getLastD ""

/-- Result of download_audio: a returned string, or the NameError raised
when the CLI binary is absent and the unassigned cmd variable is read. -/
inductive DlResult
  | ok (path : String)
  | nameError
deriving DecidableEq

/-- transcription.download_audio: when no CLI binary is found the code
reads the local variable cmd before any assignment, raising NameError
before the try block; otherwise the CLI path scans the temporary directory
for a validated audio file, and on any caught failure the Python-API
fallback result, when validated, is returned, else the empty string. -/
def download_audio (env : DlEnv) (video_id : String) : DlResult :=
  if !env.whichFound then .nameError
  else
    let cli : Option String :=
      if env.cliOk then
        (env.listing.find? fun fn =>
          video_id.data.isPrefixOf fn.data &&
          ["mp3", "m4a", "wav"].contains (lastDotPart fn) &&
          check_audio_file env (env.tempDir ++ "/" ++ fn)).map
          fun fn => env.tempDir ++ "/" ++ fn
      else none
    match cli with
    | some p => .ok p
    | none =>
      if env.apiPath != "" && check_audio_file env env.apiPath then .ok env.apiPath
      else .ok ""

/-! ## Concrete environments used by counterexamples and witnesses -/

/-- Environment where the transcript API lacks the requested language but
has English: its internal English fallback fires inside the first
provider. -/
def apiEnFallbackEnv : CapEnv :=
  ⟨true, fun l => if l == "en" then some "ENG" else none, fun _ => .error (), false, []⟩

/-- Environment where every provider fails for every language. -/
def allFailEnv : CapEnv :=
  ⟨false, fun _ => none, fun _ => .error (), false, []⟩

/-- Environment where the transcript API raises and the download tool
produces text. -/
def ytdlpWinsEnv : CapEnv :=
  ⟨false, fun _ => none, fun _ => .ok "YT", false, []⟩

/-- Download environment with no yt-dlp binary on the path. -/
def noCliEnv : DlEnv :=
  ⟨false, true, "tmp", [], fun _ => false, fun _ => 0, ""⟩

/-! ## Helper lemmas for the numeric timing pass -/

theorem adjustPass_getD_zero_start (g p : Int) (x : Nat × Nat) (r : List (Nat × Nat)) :
    p + g ≤ ((adjustPass g p (x :: r)).getD 0 (0, 0)).1 := by
  obtain ⟨s0, e0⟩ := x
  simp [adjustPass]

theorem adjustPass_chain (g : Int) (segs : List (Nat × Nat)) :
    ∀ (p : Int) (i : Nat), i + 1 < (adjustPass g p segs).length →
      ((adjustPass g p segs).getD i (0, 0)).2 + g ≤
        ((adjustPass g p segs).getD (i + 1) (0, 0)).1 := by
  induction segs with
  | nil =>
    intro p i h
    simp [adjustPass] at h
  | cons x rest ih =>
    intro p i h
    obtain ⟨s0, e0⟩ := x
    simp only [adjustPass] at h ⊢
    cases i with
    | zero =>
      cases rest with
      | nil => simp [adjustPass] at h
      | cons y r2 =>
        simp only [List.getD_cons_zero, List.getD_cons_succ]
        exact adjustPass_getD_zero_start g _ y r2
    | succ j =>
      simp only [List.getD_cons_succ]
      exact ih _ j (by simpa using h)

theorem adjustPass_elem (g : Int) (segs : List (Nat × Nat)) :
    ∀ (p : Int) (i : Nat), i < (adjustPass g p segs).length →
      ((adjustPass g p segs).getD i (0, 0)).1 + 1 ≤ ((adjustPass g p segs).getD i (0, 0)).2 ∧
      (((segs.getD i (0, 0)).2 : Int) ≤ ((adjustPass g p segs).getD i (0, 0)).1 →
        ((adjustPass g p segs).getD i (0, 0)).2 = ((adjustPass g p segs).getD i (0, 0)).1 + 500) := by
  induction segs with
  | nil =>
    intro p i h
    simp [adjustPass] at h
  | cons x rest ih =>
    intro p i h
    obtain ⟨s0, e0⟩ := x
    simp only [adjustPass] at h ⊢
    cases i with
    | zero =>
      simp only [List.getD_cons_zero]
      by_cases hc : (e0 : Int) ≤ max (s0 : Int) (p + g)
      · simp only [if_pos hc]
        exact ⟨by omega, fun _ => trivial⟩
      · simp only [if_neg hc]
        exact ⟨by omega, fun hcon => absurd hcon hc⟩
    | succ j =>
      simp only [List.getD_cons_succ]
      exact ih _ j (by simpa using h)

theorem adjustPass_idem_aux (g : Int) (segs : List (Nat × Nat)) :
    ∀ p : Int,
      adjustPass g p ((adjustPass g p segs).map fun q => (q.1.toNat, q.2.toNat)) =
        adjustPass g p segs := by
  induction segs with
  | nil => intro p; rfl
  | cons x rest ih =>
    intro p
    obtain ⟨s0, e0⟩ := x
    simp only [adjustPass, List.map_cons]
    have hs_nonneg : (0 : Int) ≤ max (s0 : Int) (p + g) :=
      le_trans (Int.natCast_nonneg s0) (le_max_left _ _)
    have hpg : p + g ≤ max (s0 : Int) (p + g) := le_max_right _ _
    rw [Int.toNat_of_nonneg hs_nonneg]
    by_cases hc : (e0 : Int) ≤ max (s0 : Int) (p + g)
    · have he_nonneg : (0 : Int) ≤ max (s0 : Int) (p + g) + 500 := by omega
      simp only [if_pos hc]
      rw [Int.toNat_of_nonneg he_nonneg, max_eq_left hpg,
        if_neg (by omega : ¬ (max (s0 : Int) (p + g) + 500 ≤ max (s0 : Int) (p + g)))]
      exact congrArg _ (ih _)
    · have he_nonneg : (0 : Int) ≤ (e0 : Int) := Int.natCast_nonneg e0
      simp only [if_neg hc]
      rw [Int.toNat_of_nonneg he_nonneg, max_eq_left hpg, if_neg hc]
      exact congrArg _ (ih _)

/-! ## Claims C1, C2, C3 -/

/-- C1: for every input timeline and every integer min_gap_ms, each pair of
adjacent segments of the normalizer output satisfies
start_ms(i+1) >= end_ms(i) + min_gap_ms, the end being the adjusted end of
the previous emitted segment. -/
theorem C1_min_gap_between_adjacent_segments (g : Int) (segs : List (Nat × Nat)) (i : Nat)
    (h : i + 1 < (adjustPass g 0 segs).length) :
    ((adjustPass g 0 segs).getD i (0, 0)).2 + g ≤
      ((adjustPass g 0 segs).getD (i + 1) (0, 0)).1 :=
  adjustPass_chain g segs 0 i h

/-- Witness for C1 at the two-segment overlap scenario with a 100 ms gap. -/
theorem C1_min_gap_between_adjacent_segments_witness :
    0 + 1 < (adjustPass 100 0 [(1000, 2000), (1500, 3000)]).length ∧
    ((adjustPass 100 0 [(1000, 2000), (1500, 3000)]).getD 0 (0, 0)).2 + 100 ≤
      ((adjustPass 100 0 [(1000, 2000), (1500, 3000)]).getD 1 (0, 0)).1 :=
  ⟨by decide, C1_min_gap_between_adjacent_segments 100 [(1000, 2000), (1500, 3000)] 0 (by decide)⟩

/-- C2: for every input timeline and non-negative min_gap_ms, every output
segment lasts at least one millisecond, and a segment whose original end is
at most its adjusted start comes out exactly 500 ms long. -/
theorem C2_min_duration (g : Int) (_hg : 0 ≤ g) (segs : List (Nat × Nat)) (i : Nat)
    (h : i < (adjustPass g 0 segs).length) :
    ((adjustPass g 0 segs).getD i (0, 0)).1 + 1 ≤ ((adjustPass g 0 segs).getD i (0, 0)).2 ∧
    (((segs.getD i (0, 0)).2 : Int) ≤ ((adjustPass g 0 segs).getD i (0, 0)).1 →
      ((adjustPass g 0 segs).getD i (0, 0)).2 = ((adjustPass g 0 segs).getD i (0, 0)).1 + 500) :=
  adjustPass_elem g segs 0 i h

/-- Witness for C2 at the degenerate segment of spec scenario B. -/
theorem C2_min_duration_witness :
    (0 : Int) ≤ 100 ∧ 0 < (adjustPass 100 0 [(2100, 2100)]).length ∧
    ((adjustPass 100 0 [(2100, 2100)]).getD 0 (0, 0)).1 + 1 ≤
      ((adjustPass 100 0 [(2100, 2100)]).getD 0 (0, 0)).2 ∧
    ((adjustPass 100 0 [(2100, 2100)]).getD 0 (0, 0)).2 =
      ((adjustPass 100 0 [(2100, 2100)]).getD 0 (0, 0)).1 + 500 := by
  refine ⟨by decide, by decide, ?_⟩
  have h := C2_min_duration 100 (by decide) [(2100, 2100)] 0 (by decide)
  exact ⟨h.1, h.2 (by decide)⟩

/-- C3 counterexample: normalizing this block pushes its end to 24 hours;
the emitted timestamp 24:00:00,499 no longer parses, so the second
application fails instead of returning the same output. -/
theorem C3_counterexample :
    validate_and_adjust_timings "1\n23:59:59,999 --> 23:59:59,999\nx" 100 =
      some "1\n23:59:59,999 --> 24:00:00,499\nx\n" ∧
    validate_and_adjust_timings "1\n23:59:59,999 --> 24:00:00,499\nx\n" 100 = none := by
  constructor <;> decide

/-- C3 amended: the numeric timing pass is idempotent with the same
min_gap_ms (re-adjusting its own emitted start/end sequence changes
nothing); the full string-level normalizer is not idempotent because
adjusted timestamps reaching 24 hours are re-serialized in a form the
timestamp parser rejects, making the second application raise. -/
theorem C3_amended_numeric_idempotent (g : Int) (segs : List (Nat × Nat)) :
    adjustPass g 0 ((adjustPass g 0 segs).map fun q => (q.1.toNat, q.2.toNat)) =
      adjustPass g 0 segs :=
  adjustPass_idem_aux g segs 0

/-! ## Claims C4 and C5: the caption resolver -/

theorem goodE_val_ne_empty (e : Except Unit String) (h : goodE e = true) : valE e ≠ "" := by
  cases e with
  | ok s =>
    intro hs
    rw [valE] at hs
    subst hs
    simp [goodE, goodStr] at h
  | error u => simp [goodE] at h

/-- C4 counterexample: with the requested language missing from the
transcript listing but English present, the first provider itself returns
the English transcript, so English is consulted before the download tool
or scraper ever see the requested language; the claimed exhaust-before-
fallback ordering is violated and the English text is returned. -/
theorem C4_counterexample :
    exhaustsProviders (resolveCaptions apiEnFallbackEnv "fr").trace "fr" = false ∧
    (resolveCaptions apiEnFallbackEnv "fr").text = "ENG" ∧
    (resolveCaptions apiEnFallbackEnv "fr").trace =
      [(Provider.api, "fr"), (Provider.api, "en")] := by
  refine ⟨by decide, by decide, by decide⟩

/-- C4 amended: only the top-level language fallback of main is gated on
provider exhaustion: the one extra English get_captions pass runs exactly
when all three providers yielded empty (or raised) for the requested
language; individual providers may consult English earlier (the transcript
API retries English internally, and the download tool requests both
languages in one invocation). -/
theorem C4_amended_language_fallback_gate (env : CapEnv) (lang : String) (h : lang ≠ "en") :
    (resolveCaptions env lang).fallbackUsed = true ↔
      (goodE (fetch_via_transcript_api env lang).1 = false ∧
       goodE (fetch_via_ytdlp env lang).1 = false ∧
       goodE (fetch_via_pytube env lang).1 = false) := by
  have hbne : (lang != "en") = true := by
    simp [bne_iff_ne, h]
  by_cases ha : goodE (fetch_via_transcript_api env lang).1 = true
  · have hne := goodE_val_ne_empty _ ha
    simp [resolveCaptions, get_captions, ha, hne, bne_iff_ne]
  · rw [Bool.not_eq_true] at ha
    by_cases hy : goodE (fetch_via_ytdlp env lang).1 = true
    · have hne := goodE_val_ne_empty _ hy
      simp [resolveCaptions, get_captions, ha, hy, hne, bne_iff_ne]
    · rw [Bool.not_eq_true] at hy
      by_cases hp : goodE (fetch_via_pytube env lang).1 = true
      · have hne := goodE_val_ne_empty _ hp
        simp [resolveCaptions, get_captions, ha, hy, hp, hne, bne_iff_ne]
      · rw [Bool.not_eq_true] at hp
        simp [resolveCaptions, get_captions, ha, hy, hp, hbne]

/-- Witness for the amended C4: with every provider failing, the English
pass runs. -/
theorem C4_amended_language_fallback_gate_witness :
    (resolveCaptions allFailEnv "fr").fallbackUsed = true :=
  (C4_amended_language_fallback_gate allFailEnv "fr" (by decide)).mpr
    ⟨by decide, by decide, by decide⟩

/-- C5: get_captions tries the transcript API, then the download tool, then
the scraper, in that order; the first result that is non-empty after
stripping is returned as-is, with the consult trace showing the remaining
providers untouched; a raising provider counts as empty; and the empty
string comes back only when all three yielded empty. -/
theorem C5_provider_order_and_short_circuit (env : CapEnv) (lang : String) :
    (goodE (fetch_via_transcript_api env lang).1 = true →
      get_captions env lang =
        (valE (fetch_via_transcript_api env lang).1, (fetch_via_transcript_api env lang).2)) ∧
    (goodE (fetch_via_transcript_api env lang).1 = false →
      goodE (fetch_via_ytdlp env lang).1 = true →
      get_captions env lang =
        (valE (fetch_via_ytdlp env lang).1,
          (fetch_via_transcript_api env lang).2 ++ (fetch_via_ytdlp env lang).2)) ∧
    (goodE (fetch_via_transcript_api env lang).1 = false →
      goodE (fetch_via_ytdlp env lang).1 = false →
      goodE (fetch_via_pytube env lang).1 = true →
      get_captions env lang =
        (valE (fetch_via_pytube env lang).1,
          (fetch_via_transcript_api env lang).2 ++ (fetch_via_ytdlp env lang).2 ++
            (fetch_via_pytube env lang).2)) ∧
    (goodE (fetch_via_transcript_api env lang).1 = false →
      goodE (fetch_via_ytdlp env lang).1 = false →
      goodE (fetch_via_pytube env lang).1 = false →
      (get_captions env lang).1 = "") := by
  refine ⟨fun ha => ?_, fun ha hy => ?_, fun ha hy hp => ?_, fun ha hy hp => ?_⟩
  · simp [get_captions, ha]
  · simp [get_captions, ha, hy]
  · simp [get_captions, ha, hy, hp]
  · simp [get_captions, ha, hy, hp]

/-- Witness for C5: the transcript API raises, the download tool answers,
the scraper is never consulted. -/
theorem C5_provider_order_and_short_circuit_witness :
    goodE (fetch_via_transcript_api ytdlpWinsEnv "ar").1 = false ∧
    goodE (fetch_via_ytdlp ytdlpWinsEnv "ar").1 = true ∧
    get_captions ytdlpWinsEnv "ar" =
      (valE (fetch_via_ytdlp ytdlpWinsEnv "ar").1,
        (fetch_via_transcript_api ytdlpWinsEnv "ar").2 ++ (fetch_via_ytdlp ytdlpWinsEnv "ar").2) :=
  ⟨by decide, by decide,
    (C5_provider_order_and_short_circuit ytdlpWinsEnv "ar").2.1 (by decide) (by decide)⟩

/-! ## Claim C6: the model caches -/

theorem get_whisper_model_bound (c : ModelCache) (size : String) (ok : Bool)
    (h : c.whisper.length ≤ 1 ∧ c.faster.length ≤ 1) :
    (get_whisper_model c size ok).whisper.length ≤ 1 ∧
      (get_whisper_model c size ok).faster.length ≤ 1 := by
  unfold get_whisper_model
  by_cases hv : validate_model_size size
  · simp only [hv, Bool.not_true, Bool.false_eq_true, if_false]
    by_cases hfull : MAX_CACHED_MODELS ≤ c.whisper.length ∧ !c.whisper.contains size
    · simp only [if_pos hfull, clean_model_cache]
      cases ok <;> simp
    · simp only [if_neg hfull]
      by_cases hmem : size ∈ c.whisper
      · simp [hmem, h.1, h.2]
      · have hlen : c.whisper.length = 0 := by
          rcases h with ⟨h1, _⟩
          by_contra hne
          exact hfull ⟨by unfold MAX_CACHED_MODELS; omega, by simp [hmem]⟩
        cases ok <;>
          simp [hmem, hlen, h.2, List.length_eq_zero.mp hlen, h.1]
  · simp [hv, h.1, h.2]

theorem get_faster_model_bound (c : ModelCache) (size : String) (ok : Bool)
    (h : c.whisper.length ≤ 1 ∧ c.faster.length ≤ 1) :
    (get_faster_model c size ok).whisper.length ≤ 1 ∧
      (get_faster_model c size ok).faster.length ≤ 1 := by
  unfold get_faster_model
  by_cases hv : validate_model_size size
  · simp only [hv, Bool.not_true, Bool.false_eq_true, if_false]
    by_cases hfull : MAX_CACHED_MODELS ≤ c.faster.length ∧ !c.faster.contains size
    · simp only [if_pos hfull, clean_model_cache]
      cases ok <;> simp
    · simp only [if_neg hfull]
      by_cases hmem : size ∈ c.faster
      · simp [hmem, h.1, h.2]
      · have hlen : c.faster.length = 0 := by
          rcases h with ⟨_, h2⟩
          by_contra hne
          exact hfull ⟨by unfold MAX_CACHED_MODELS; omega, by simp [hmem]⟩
        cases ok <;>
          simp [hmem, hlen, h.1, List.length_eq_zero.mp hlen, h.2]
  · simp [hv, h.1, h.2]

theorem cacheStep_bound (c : ModelCache) (op : CacheOp)
    (h : c.whisper.length ≤ 1 ∧ c.faster.length ≤ 1) :
    (cacheStep c op).whisper.length ≤ 1 ∧ (cacheStep c op).faster.length ≤ 1 := by
  cases op with
  | getW size ok => exact get_whisper_model_bound c size ok h
  | getF size ok => exact get_faster_model_bound c size ok h
  | releaseW size =>
    refine ⟨le_trans ?_ h.1, h.2⟩
    simpa [cacheStep] using List.length_filter_le _ _
  | releaseF size =>
    refine ⟨h.1, le_trans ?_ h.2⟩
    simpa [cacheStep] using List.length_filter_le _ _
  | clear => simp [cacheStep, clean_model_cache]

theorem foldl_cacheStep_bound (ops : List CacheOp) :
    ∀ c : ModelCache, c.whisper.length ≤ 1 ∧ c.faster.length ≤ 1 →
      (ops.foldl cacheStep c).whisper.length ≤ 1 ∧
        (ops.foldl cacheStep c).faster.length ≤ 1 := by
  induction ops with
  | nil => intro c h; simpa using h
  | cons op rest ih =>
    intro c h
    simpa using ih (cacheStep c op) (cacheStep_bound c op h)

/-- C6 counterexample: loading the same size on the two different backends
leaves one entry in each dictionary, so the total cached entries across
both backends reach two; the second load also fails to evict the first
entry even though its key differs (different backend). -/
theorem C6_counterexample :
    (runCacheOps [CacheOp.getW "base" true, CacheOp.getF "base" true]).whisper.length +
      (runCacheOps [CacheOp.getW "base" true, CacheOp.getF "base" true]).faster.length = 2 := by
  decide

/-- C6 amended: each backend dictionary separately never holds more than
one entry, and loading a different size into a full whisper cache clears
both dictionaries before inserting; but the two dictionaries are
independent, so the total across both backends can reach two. -/
theorem C6_amended_per_backend_bound :
    (∀ ops : List CacheOp,
      (runCacheOps ops).whisper.length ≤ 1 ∧ (runCacheOps ops).faster.length ≤ 1) ∧
    (∀ (fl : List String) (k k2 : String), validate_model_size k2 = true → k2 ≠ k →
      get_whisper_model ⟨[k], fl⟩ k2 true = ⟨[k2], []⟩) := by
  constructor
  · intro ops
    exact foldl_cacheStep_bound ops ⟨[], []⟩ (by simp)
  · intro fl k k2 hv hne
    unfold get_whisper_model
    simp [hv, hne, clean_model_cache, MAX_CACHED_MODELS]

/-- Witness for the amended C6 at a concrete operation list and a concrete
eviction. -/
theorem C6_amended_per_backend_bound_witness :
    ((runCacheOps [CacheOp.getW "base" true]).whisper.length ≤ 1 ∧
      (runCacheOps [CacheOp.getW "base" true]).faster.length ≤ 1) ∧
    get_whisper_model ⟨["base"], []⟩ "small" true = ⟨["small"], []⟩ :=
  ⟨C6_amended_per_backend_bound.1 [CacheOp.getW "base" true],
    C6_amended_per_backend_bound.2 [] "base" "small" (by decide) (by decide)⟩

/-! ## Claim C7: download_audio -/

/-- C7: transcription.download_audio reads the local variable cmd before
any assignment when shutil.which finds no yt-dlp binary, raising NameError
instead of falling through to the Python-API download; with the binary
present the same environment degrades to the API fallback and returns the
empty string without raising. -/
theorem C7_download_audio_name_error :
    download_audio noCliEnv "dQw4w9WgXcQ" = DlResult.nameError ∧
    download_audio { noCliEnv with whichFound := true } "dQw4w9WgXcQ" = DlResult.ok "" := by
  refine ⟨by decide, by decide⟩

/-! ## Claim C8: totality of the normalizer -/

/-- C8 counterexample: a block whose timing line holds no parseable
timestamps makes validate_and_adjust_timings raise (modelled as none)
rather than return a string; the second input shows a subtler failure,
where a vertical tab splits the index line so that the timing slot holds
ordinary text and timestamp parsing raises. -/
theorem C8_counterexample :
    validate_and_adjust_timings "1\nbad --> worse\nx" 0 = none ∧
    validate_and_adjust_timings "1\x0bjunk\n00:00:01,000 --> 00:00:02,000\nHi" 0 = none := by
  refine ⟨by decide, by decide⟩

/-- C8 amended: validate_and_adjust_timings terminates normally with a
string for every input whose arrow-containing blocks are well-formed (at
least two lines; timing line splitting on the arrow into two parseable SRT
timestamps); on other inputs the timestamp parsing raises ValueError, so
the function is not total on all strings. -/
theorem C8_amended_total_on_wellformed (s : String) (g : Int) (ps : List ParsedBlock)
    (h : parsedBlocks s = some ps) :
    ∃ o, validate_and_adjust_timings s g = some o := by
  unfold validate_and_adjust_timings
  rw [h]
  exact ⟨_, rfl⟩

/-- Witness for the amended C8 on a well-formed one-block input. -/
theorem C8_amended_total_on_wellformed_witness :
    parsedBlocks "1\n00:00:01,000 --> 00:00:02,000\nHi" =
      some [ParsedBlock.mk "1" 1000 2000 ["Hi"]] ∧
    ∃ o, validate_and_adjust_timings "1\n00:00:01,000 --> 00:00:02,000\nHi" 100 = some o :=
  ⟨by decide,
    C8_amended_total_on_wellformed _ 100 [ParsedBlock.mk "1" 1000 2000 ["Hi"]] (by decide)⟩

/-! ## Claim C9: shape of extract_video_id results -/

theorem takeId11_shape (cs : List Char) (r : String) (h : takeId11 cs = some r) :
    r.data.length = 11 ∧ r.data.all isIdChar = true := by
  simp only [takeId11] at h
  split at h
  · rename_i hcond
    cases h
    exact ⟨hcond.1, by simpa using hcond.2⟩
  · cases h

theorem reSearch_shape (f : List Char → Option String)
    (hf : ∀ cs r, f cs = some r → r.data.length = 11 ∧ r.data.all isIdChar = true) :
    ∀ cs r, reSearch f cs = some r → r.data.length = 11 ∧ r.data.all isIdChar = true := by
  intro cs
  induction cs with
  | nil => intro r h; exact hf [] r h
  | cons c cs ih =>
    intro r h
    unfold reSearch at h
    revert h
    split
    · rename_i v hv
      intro h
      cases h
      exact hf _ _ hv
    · exact ih r

theorem tryPatternVeq_shape (cs : List Char) (r : String) (h : tryPatternVeq cs = some r) :
    r.data.length = 11 ∧ r.data.all isIdChar = true := by
  unfold tryPatternVeq at h
  split at h
  · exact takeId11_shape _ _ h
  · exact takeId11_shape _ _ h
  · cases h

theorem tryPatternShort_shape (cs : List Char) (r : String) (h : tryPatternShort cs = some r) :
    r.data.length = 11 ∧ r.data.all isIdChar = true := by
  unfold tryPatternShort at h
  split at h
  · exact takeId11_shape _ _ h
  · cases h

theorem tryPatternEmbed_shape (cs : List Char) (r : String) (h : tryPatternEmbed cs = some r) :
    r.data.length = 11 ∧ r.data.all isIdChar = true := by
  unfold tryPatternEmbed at h
  split at h
  · exact takeId11_shape _ _ h
  · cases h

theorem matchBareId_shape (s : String) (r : String) (h : matchBareId s = some r) :
    r.data.length = 11 ∧ r.data.all isIdChar = true := by
  simp only [matchBareId] at h
  split at h
  · rename_i hcond
    cases h
    exact ⟨hcond.1, by simpa using hcond.2⟩
  · split at h
    · rename_i hcond
      cases h
      refine ⟨by simp [List.length_take, hcond.1], by simpa using hcond.2.2⟩
    · cases h

/-- C9: extract_video_id returns either the empty string or a string of
exactly eleven characters drawn from the id character class; every regex
group in the source has that exact shape. -/
theorem C9_video_id_shape (url : String) :
    extract_video_id url = "" ∨
      ((extract_video_id url).data.length = 11 ∧
        (extract_video_id url).data.all isIdChar = true) := by
  unfold extract_video_id
  cases h1 : reSearch tryPatternVeq url.data with
  | some v => exact Or.inr (reSearch_shape _ tryPatternVeq_shape _ _ h1)
  | none =>
    cases h2 : reSearch tryPatternShort url.data with
    | some v => exact Or.inr (reSearch_shape _ tryPatternShort_shape _ _ h2)
    | none =>
      cases h3 : reSearch tryPatternEmbed url.data with
      | some v => exact Or.inr (reSearch_shape _ tryPatternEmbed_shape _ _ h3)
      | none =>
        cases h4 : matchBareId url with
        | some v => exact Or.inr (matchBareId_shape _ _ h4)
        | none => exact Or.inl rfl

/-! ## Claim C10: timestamp round-trip -/

set_option maxRecDepth 8000

theorem fdiv_ofNat (m k : Nat) : (Int.ofNat m).fdiv (Int.ofNat k) = Int.ofNat (m / k) := by
  cases m with
  | zero => rw [Nat.zero_div]; rfl
  | succ k2 => rfl

theorem fmod_ofNat (m k : Nat) : (Int.ofNat m).fmod (Int.ofNat k) = Int.ofNat (m % k) := by
  cases m with
  | zero => rw [Nat.zero_mod]; rfl
  | succ k2 => rfl

theorem pyPad_ofNat (w k : Nat) : pyPad w (Int.ofNat k) = zfill w (Nat.repr k) := rfl

theorem digitChar_facts : ∀ a, a < 10 →
    (Nat.digitChar a).isDigit = true ∧ Nat.digitChar a ≠ '.' := by decide

theorem digitsToNat_two : ∀ a, a < 10 → ∀ b, b < 10 →
    digitsToNat [Nat.digitChar a, Nat.digitChar b] = 10 * a + b := by decide

theorem digitsToNat_three : ∀ a, a < 10 → ∀ b, b < 10 → ∀ c, c < 10 →
    digitsToNat [Nat.digitChar a, Nat.digitChar b, Nat.digitChar c] = 100 * a + 10 * b + c := by
  decide

theorem zfill2_data : ∀ n, n < 100 → (zfill 2 (Nat.repr n)).data =
    [Nat.digitChar (n / 10), Nat.digitChar (n % 10)] := by decide

theorem zfill3_data : ∀ n, n < 1000 → (zfill 3 (Nat.repr n)).data =
    [Nat.digitChar (n / 100), Nat.digitChar (n / 10 % 10), Nat.digitChar (n % 10)] := by decide

theorem readDigits_two (x y : Char) (r : List Char) (hx : x.isDigit = true)
    (hy : y.isDigit = true) (hr : ∀ c cs, r = c :: cs → c.isDigit = false) :
    readDigits (x :: y :: r) = ([x, y], r) := by
  cases r with
  | nil => simp [readDigits, hx, hy]
  | cons c cs => simp [readDigits, hx, hy, hr c cs rfl]

theorem readDigits_three_nil (x y z : Char) (hx : x.isDigit = true)
    (hy : y.isDigit = true) (hz : z.isDigit = true) :
    readDigits [x, y, z] = ([x, y, z], []) := by
  simp [readDigits, hx, hy, hz]

theorem parseHMS_format (x1 x2 y1 y2 z1 z2 : Char) (tail : List Char)
    (hx1 : x1.isDigit = true) (hx2 : x2.isDigit = true)
    (hy1 : y1.isDigit = true) (hy2 : y2.isDigit = true)
    (hz1 : z1.isDigit = true) (hz2 : z2.isDigit = true)
    (htail : ∀ c cs, tail = c :: cs → c.isDigit = false)
    (hbh : digitsToNat [x1, x2] ≤ 23) (hbm : digitsToNat [y1, y2] ≤ 59)
    (hbs : digitsToNat [z1, z2] ≤ 61) :
    parseHMS (x1 :: x2 :: ':' :: y1 :: y2 :: ':' :: z1 :: z2 :: tail) =
      some (digitsToNat [x1, x2], digitsToNat [y1, y2], digitsToNat [z1, z2], tail) := by
  have rd1 : readDigits (x1 :: x2 :: ':' :: y1 :: y2 :: ':' :: z1 :: z2 :: tail) =
      ([x1, x2], ':' :: y1 :: y2 :: ':' :: z1 :: z2 :: tail) :=
    readDigits_two _ _ _ hx1 hx2 (fun c cs h => by cases h; decide)
  have rd2 : readDigits (y1 :: y2 :: ':' :: z1 :: z2 :: tail) =
      ([y1, y2], ':' :: z1 :: z2 :: tail) :=
    readDigits_two _ _ _ hy1 hy2 (fun c cs h => by cases h; decide)
  have rd3 : readDigits (z1 :: z2 :: tail) = ([z1, z2], tail) :=
    readDigits_two _ _ _ hz1 hz2 htail
  simp [parseHMS, rd1, rd2, rd3, hbh, hbm, hbs]

theorem parseFmtFrac_format (x1 x2 y1 y2 z1 z2 f1 f2 f3 : Char)
    (hx1 : x1.isDigit = true) (hx2 : x2.isDigit = true)
    (hy1 : y1.isDigit = true) (hy2 : y2.isDigit = true)
    (hz1 : z1.isDigit = true) (hz2 : z2.isDigit = true)
    (hf1 : f1.isDigit = true) (hf2 : f2.isDigit = true) (hf3 : f3.isDigit = true)
    (hbh : digitsToNat [x1, x2] ≤ 23) (hbm : digitsToNat [y1, y2] ≤ 59)
    (hbs : digitsToNat [z1, z2] ≤ 59) :
    parseFmtFrac (x1 :: x2 :: ':' :: y1 :: y2 :: ':' :: z1 :: z2 :: ',' :: [f1, f2, f3]) =
      some ⟨digitsToNat [x1, x2], digitsToNat [y1, y2], digitsToNat [z1, z2],
        digitsToNat [f1, f2, f3] * 1000⟩ := by
  have hps := parseHMS_format x1 x2 y1 y2 z1 z2 (',' :: [f1, f2, f3]) hx1 hx2 hy1 hy2 hz1 hz2
    (fun c cs h => by cases h; decide) hbh hbm (le_trans hbs (by omega))
  have rdf : readDigits [f1, f2, f3] = ([f1, f2, f3], []) :=
    readDigits_three_nil _ _ _ hf1 hf2 hf3
  simp [parseFmtFrac, hps, rdf, hbs]

theorem map_nodot (cs : List Char) (h : ∀ c ∈ cs, c ≠ '.') :
    (cs.map fun c => if c = '.' then ',' else c) = cs := by
  induction cs with
  | nil => rfl
  | cons c cs ih =>
    simp only [List.map_cons, if_neg (h c (by simp)), List.cons.injEq, true_and]
    exact ih fun x hx => h x (by simp [hx])

theorem string_data_append (a b : String) : (a ++ b).data = a.data ++ b.data := rfl

theorem ms_to_time_decomp (n : Nat) :
    ms_to_time (Int.ofNat n) =
      zfill 2 (Nat.repr (n / 3600000)) ++ ":" ++ zfill 2 (Nat.repr (n % 3600000 / 60000)) ++ ":" ++
      zfill 2 (Nat.repr (n % 3600000 % 60000 / 1000)) ++ "," ++
      zfill 3 (Nat.repr (n % 3600000 % 60000 % 1000)) := by
  simp only [ms_to_time,
    show (3600000 : Int) = Int.ofNat 3600000 from rfl,
    show (60000 : Int) = Int.ofNat 60000 from rfl,
    show (1000 : Int) = Int.ofNat 1000 from rfl,
    fdiv_ofNat, fmod_ofNat, pyPad_ofNat]

/-- C10: formatting then parsing round-trips: for every integer number of
milliseconds below one day, parse_srt_time accepts the string produced by
ms_to_time and time_to_ms recovers the original value. -/
theorem C10_timestamp_roundtrip (ms : Int) (h0 : 0 ≤ ms) (h1 : ms < 86400000) :
    ∃ t, parse_srt_time (ms_to_time ms) = some t ∧ Int.ofNat (time_to_ms t) = ms := by
  obtain ⟨n, rfl⟩ : ∃ n : Nat, ms = Int.ofNat n :=
    ⟨ms.toNat, (Int.toNat_of_nonneg h0).symm⟩
  have hn : n < 86400000 := by exact_mod_cast (show ((n : Int)) < 86400000 from h1)
  set hh := n / 3600000 with hhh_def
  set mn := n % 3600000 / 60000 with hmn_def
  set sc := n % 3600000 % 60000 / 1000 with hsc_def
  set rr := n % 3600000 % 60000 % 1000 with hrr_def
  have hhb : hh < 24 := by omega
  have hmb : mn < 60 := by omega
  have hsb : sc < 60 := by omega
  have hrb : rr < 1000 := by omega
  have hdata : (ms_to_time (Int.ofNat n)).data =
      Nat.digitChar (hh / 10) :: Nat.digitChar (hh % 10) :: ':' ::
      Nat.digitChar (mn / 10) :: Nat.digitChar (mn % 10) :: ':' ::
      Nat.digitChar (sc / 10) :: Nat.digitChar (sc % 10) :: ',' ::
      [Nat.digitChar (rr / 100), Nat.digitChar (rr / 10 % 10), Nat.digitChar (rr % 10)] := by
    rw [ms_to_time_decomp]
    simp only [string_data_append, zfill2_data hh (by omega), zfill2_data mn (by omega),
      zfill2_data sc (by omega), zfill3_data rr (by omega)]
    rfl
  have hmap : ((ms_to_time (Int.ofNat n)).data.map fun c => if c = '.' then ',' else c) =
      (ms_to_time (Int.ofNat n)).data := by
    rw [hdata]
    apply map_nodot
    intro c hc
    simp at hc
    rcases hc with rfl | rfl | rfl | rfl | rfl | rfl | rfl | rfl | rfl | rfl | rfl | rfl
    · exact (digitChar_facts _ (by omega)).2
    · exact (digitChar_facts _ (by omega)).2
    · decide
    · exact (digitChar_facts _ (by omega)).2
    · exact (digitChar_facts _ (by omega)).2
    · decide
    · exact (digitChar_facts _ (by omega)).2
    · exact (digitChar_facts _ (by omega)).2
    · decide
    · exact (digitChar_facts _ (by omega)).2
    · exact (digitChar_facts _ (by omega)).2
    · exact (digitChar_facts _ (by omega)).2
  have hfrac : parseFmtFrac ((ms_to_time (Int.ofNat n)).data.map
      fun c => if c = '.' then ',' else c) =
      some ⟨hh, mn, sc, rr * 1000⟩ := by
    rw [hmap, hdata]
    have := parseFmtFrac_format (Nat.digitChar (hh / 10)) (Nat.digitChar (hh % 10))
      (Nat.digitChar (mn / 10)) (Nat.digitChar (mn % 10))
      (Nat.digitChar (sc / 10)) (Nat.digitChar (sc % 10))
      (Nat.digitChar (rr / 100)) (Nat.digitChar (rr / 10 % 10)) (Nat.digitChar (rr % 10))
      (digitChar_facts _ (by omega)).1 (digitChar_facts _ (by omega)).1
      (digitChar_facts _ (by omega)).1 (digitChar_facts _ (by omega)).1
      (digitChar_facts _ (by omega)).1 (digitChar_facts _ (by omega)).1
      (digitChar_facts _ (by omega)).1 (digitChar_facts _ (by omega)).1
      (digitChar_facts _ (by omega)).1
      (by rw [digitsToNat_two _ (by omega) _ (by omega)]; omega)
      (by rw [digitsToNat_two _ (by omega) _ (by omega)]; omega)
      (by rw [digitsToNat_two _ (by omega) _ (by omega)]; omega)
    rw [this]
    rw [digitsToNat_two _ (by omega) _ (by omega), digitsToNat_two _ (by omega) _ (by omega),
      digitsToNat_two _ (by omega) _ (by omega),
      digitsToNat_three _ (by omega) _ (by omega) _ (by omega)]
    congr 1
    congr 1 <;> omega
  refine ⟨⟨hh, mn, sc, rr * 1000⟩, ?_, ?_⟩
  · simp only [parse_srt_time, hfrac]
  · simp only [time_to_ms]
    have : rr * 1000 / 1000 = rr := by omega
    rw [this]
    congr 1
    omega

/-- Witness for C10 at a concrete number of milliseconds. -/
theorem C10_timestamp_roundtrip_witness :
    (0 : Int) ≤ 45296789 ∧ (45296789 : Int) < 86400000 ∧
    ∃ t, parse_srt_time (ms_to_time 45296789) = some t ∧
      Int.ofNat (time_to_ms t) = 45296789 :=
  ⟨by decide, by decide, C10_timestamp_roundtrip 45296789 (by decide) (by decide)⟩
